import Mathlib

/-!
Verification of the ABOD (Angle-Based Outlier Detection) engine of the
Pyod repository, shallowly embedded from `src/pyod/models/abod.py`.

Points are vectors of rationals (`List ℚ`); the training matrix is a list
of rows.  NumPy's NaN-producing empty variance is modelled with `Option ℚ`
(`none` = NaN).  Python exceptions are modelled with an explicit error type;
`fit`, which mutates the detector object even when it raises, returns the
raised error (if any) together with the state of the object after the call.

Components of the repository that the ABOD module calls but whose code is
not under `src/` (the `check_parameter` utility, the Detector Shell's
`_process_decision_scores`, and the sklearn nearest-neighbour structures)
are modelled from the specification and marked as such in doc comments.
-/

namespace Pyod

/-- A data point: a vector of rational features. -/
abbrev Point := List ℚ

/-- A data matrix: an ordered list of points (rows). -/
abbrev DataMatrix := List Point

/-- Coordinate-wise difference `a - b` (NumPy vector subtraction). -/
def vsub (a b : Point) : Point := List.zipWith (fun x y => x - y) a b

/-- Inner product `np.dot a b`. -/
def dot (a b : Point) : ℚ := (List.zipWith (fun x y => x * y) a b).sum

/-- Squared Euclidean norm `np.linalg.norm(a, 2) ** 2`. -/
def sqNorm (a : Point) : ℚ := dot a a

/-- Row `i` of the matrix, `X[i, :]`. -/
def rowOf (X : DataMatrix) (i : Nat) : Point := X.getD i []

/-- `list(itertools.combinations(l, 2))`: all pairs of elements at
positions `p < q`, in Python's enumeration order. -/
def pairCombinations {α : Type} : List α → List (α × α)
  | [] => []
  | x :: xs => xs.map (fun y => (x, y)) ++ pairCombinations xs

/-- The body of the pair loop of `_calculate_wocs`: skip the pair when
either endpoint coincides with the pivot, otherwise the weighted cosine
`dot(a_curr, b_curr) / ‖a_curr‖² / ‖b_curr‖²`. -/
def wocsOfPair (currPt a b : Point) : Option ℚ :=
  if a = currPt ∨ b = currPt then none
  else some (dot (vsub a currPt) (vsub b currPt)
      / sqNorm (vsub a currPt) / sqNorm (vsub b currPt))

/-- The `wcos_list` accumulated by `_calculate_wocs`. -/
def wcosList (currPt : Point) (X : DataMatrix) (Xind : List Nat) : List ℚ :=
  (pairCombinations Xind).filterMap
    (fun p => wocsOfPair currPt (rowOf X p.1) (rowOf X p.2))

/-- `np.var`: population variance (mean of squared deviations from the
mean), NaN (`none`) on an empty list. -/
def npVar (l : List ℚ) : Option ℚ :=
  if l.length = 0 then none
  else some (((l.map (fun x => (x - l.sum / (l.length : ℚ)) ^ 2)).sum)
      / (l.length : ℚ))

/-- `_calculate_wocs(curr_pt, X, X_ind)` from `abod.py`. -/
def calculateWocs (currPt : Point) (X : DataMatrix) (Xind : List Nat) : Option ℚ :=
  npVar (wcosList currPt X Xind)

/-! ### Neighbour index (spec-modelled collaborator) -/

/-- Insert `x` into `l` before the first element `y` with `¬ le x y`. -/
def insertBy {α : Type} (le : α → α → Bool) (x : α) : List α → List α
  | [] => [x]
  | y :: ys => if le x y then x :: y :: ys else y :: insertBy le x ys

/-- Insertion sort by the boolean relation `le`. -/
def sortBy {α : Type} (le : α → α → Bool) : List α → List α
  | [] => []
  | x :: xs => insertBy le x (sortBy le xs)

/-- Ascending (squared distance, index) lexicographic order. -/
def distIdxLe (a b : ℚ × Nat) : Bool :=
  decide (a.1 < b.1 ∨ (a.1 = b.1 ∧ a.2 ≤ b.2))

/-- Modelled from the spec: the Neighbor Index (spec §4.2) — the sklearn
`KDTree` / `NearestNeighbors` query structures used by `abod.py` are not
part of this repository's sources.  Per the spec it returns, for a query
point, the `k` training-set indices closest in Euclidean distance, in
ascending distance order with ties broken by index order, and performs no
implicit self-exclusion when the query point is a training point. -/
def kneighbors (X : DataMatrix) (q : Point) (k : Nat) : List Nat :=
  ((sortBy distIdxLe
      ((List.range X.length).map (fun i => (sqNorm (vsub (rowOf X i) q), i)))).take k).map
    Prod.snd

/-! ### The ABOD detector object -/

/-- The errors the ABOD paths can raise. -/
inductive PyErr : Type
  /-- `ValueError` raised by `fit` on an unrecognised method string. -/
  | valueError (msg : String)
  /-- Parameter-range error raised by `check_parameter`. -/
  | rangeError (param low high : Nat)
  /-- `NotFittedError` raised by `check_is_fitted`, naming the missing
  fitted attributes. -/
  | notFitted (missing : List String)
  deriving DecidableEq

/-- The ABOD detector object: constructor parameters plus the attributes
set during fitting, each `Option` so that `none` means "attribute not yet
assigned" (what sklearn's `check_is_fitted` tests). -/
structure ABOD : Type where
  contamination : ℚ
  n_neighbors : Nat
  method : String
  X_train_ : Option DataMatrix
  n_train_ : Option Nat
  decision_scores_ : Option (List (Option ℚ))
  threshold_ : Option ℚ
  labels_ : Option (List Nat)
  tree_ : Option DataMatrix
  deriving DecidableEq

/-- `ABOD.__init__(contamination, n_neighbors, method)`: a fresh, unfitted
detector. -/
def mkABOD (contamination : ℚ) (n_neighbors : Nat) (method : String) : ABOD :=
  ⟨contamination, n_neighbors, method, none, none, none, none, none, none⟩

/-- Modelled from the spec: `check_parameter(param, low, high)` from
`pyod.utils.utility` is not under `src/`; per spec §4.3/§7 it fails with a
parameter-range error exactly when the parameter lies outside `[low, high]`
(both bounds inclusive: `k = N` must succeed, `k > N` must fail). -/
def check_parameter (param low high : Nat) : Option PyErr :=
  if param < low ∨ param > high then some (PyErr.rangeError param low high)
  else none

/-- Multiply a score array by `-1` (NaN stays NaN). -/
def flipScores (l : List (Option ℚ)) : List (Option ℚ) :=
  l.map (Option.map (fun s => s * (-1)))

/-- Modelled from the spec: the Detector Shell's threshold derivation
(spec §6) — `BaseDetector._process_decision_scores` is not under `src/`.
The threshold is a contamination-quantile of the defined (non-NaN)
scores, taken from the scores sorted in descending order. -/
def thresholdOf (contamination : ℚ) (scores : List (Option ℚ)) : ℚ :=
  let vals := scores.filterMap id
  (sortBy (fun a b => decide (b ≤ a)) vals).getD
    (contamination * vals.length).floor.toNat 0

/-- Modelled from the spec: the Detector Shell's
`_process_decision_scores` (spec §6) is not under `src/`; it consumes the
stored (already sign-flipped) score array and assigns `threshold_` and the
binary `labels_` derived from the contamination fraction (a NaN score
compares false, hence label 0). -/
def processDecisionScores (m : ABOD) : ABOD :=
  let scores := m.decision_scores_.getD []
  let t := thresholdOf m.contamination scores
  { m with
      threshold_ := some t
      labels_ := some (scores.map (fun s =>
        match s with
        | some v => if t < v then 1 else 0
        | none => 0)) }

/-- The raw (pre-flip) fit-time scores of `ABOD._fit_default`: for each
training point `i`, WOCS over all indices `0..N-1` with `i` removed
(`X_ind = list(range(0, n_train)); X_ind.remove(i)`). -/
def fitDefaultScores (X : DataMatrix) : List (Option ℚ) :=
  (List.range X.length).map (fun i =>
    calculateWocs (rowOf X i) X ((List.range X.length).erase i))

/-- The raw (pre-flip) fit-time scores of `ABOD._fit_fast`: for each
training point `i`, WOCS over the row of the neighbour query, passed on
unfiltered. -/
def fitFastScores (X : DataMatrix) (k : Nat) : List (Option ℚ) :=
  (List.range X.length).map (fun i =>
    calculateWocs (rowOf X i) X (kneighbors X (rowOf X i) k))

/-- `ABOD.fit(X)`.  Returns the raised error, if any, together with the
state of the detector object after the call: Python keeps attribute
assignments made before an exception, so the post-`raise` state is the
partially-updated object. -/
def ABOD.fit (m : ABOD) (X : DataMatrix) : Option PyErr × ABOD :=
  let n := X.length
  let m1 : ABOD :=
    { m with
        X_train_ := some X
        n_train_ := some n
        decision_scores_ := some (List.replicate n (some 0)) }
  if m.method = "fast" then
    match check_parameter m.n_neighbors 1 n with
    | some e => (some e, m1)
    | none =>
        let m2 : ABOD :=
          { m1 with
              tree_ := some X
              decision_scores_ := some (fitFastScores X m.n_neighbors) }
        (none, processDecisionScores
          { m2 with
              decision_scores_ :=
                some (flipScores (fitFastScores X m.n_neighbors)) })
  else if m.method = "default" then
    let m2 : ABOD :=
      { m1 with decision_scores_ := some (fitDefaultScores X) }
    (none, processDecisionScores
      { m2 with
          decision_scores_ := some (flipScores (fitDefaultScores X)) })
  else
    (some (PyErr.valueError (m.method ++ " is not a valid method")), m1)

/-- The list of fitted attributes, among the five checked by
`decision_function`, that are not yet assigned — what sklearn's
`check_is_fitted(self, ['X_train_', 'n_train_', 'decision_scores_',
'threshold_', 'labels_'])` reports as missing. -/
def ABOD.missingAttrs (m : ABOD) : List String :=
  (if m.X_train_.isSome then [] else ["X_train_"]) ++
  (if m.n_train_.isSome then [] else ["n_train_"]) ++
  (if m.decision_scores_.isSome then [] else ["decision_scores_"]) ++
  (if m.threshold_.isSome then [] else ["threshold_"]) ++
  (if m.labels_.isSome then [] else ["labels_"])

/-- The raw (pre-flip) scores of `ABOD._decision_function_default`: WOCS of
each query point over all training indices `0..n_train_-1`, none excluded. -/
def decisionDefault (m : ABOD) (X : DataMatrix) : List (Option ℚ) :=
  X.map (fun q =>
    calculateWocs q (m.X_train_.getD []) (List.range (m.n_train_.getD 0)))

/-- The raw (pre-flip) scores of `ABOD._decision_function_fast`: WOCS of
each query point over the `n_neighbors` nearest training indices returned
by the retained tree. -/
def decisionFast (m : ABOD) (tree : DataMatrix) (X : DataMatrix) : List (Option ℚ) :=
  X.map (fun q =>
    calculateWocs q (m.X_train_.getD []) (kneighbors tree q m.n_neighbors))

/-- `ABOD.decision_function(X)`.  Returns the result (scores or raised
error) together with the state of the object after the call; the method
assigns no attribute, so that state is the input state. -/
def ABOD.decision_function (m : ABOD) (X : DataMatrix) :
    Except PyErr (List (Option ℚ)) × ABOD :=
  if m.missingAttrs ≠ [] then
    (Except.error (PyErr.notFitted m.missingAttrs), m)
  else if m.method = "fast" then
    match m.tree_ with
    | none => (Except.error (PyErr.notFitted ["tree_"]), m)
    | some tree => (Except.ok (flipScores (decisionFast m tree X)), m)
  else
    (Except.ok (flipScores (decisionDefault m X)), m)

/-! ### Helper lemmas on pair enumeration -/

lemma mem_pairCombinations {α : Type} {p : α × α} :
    ∀ {l : List α}, p ∈ pairCombinations l → p.1 ∈ l ∧ p.2 ∈ l := by
  intro l
  induction l with
  | nil => simp [pairCombinations]
  | cons x xs ih =>
    intro hp
    rcases List.mem_append.mp hp with hp | hp
    · rcases List.mem_map.mp hp with ⟨y, hy, rfl⟩
      exact ⟨List.mem_cons_self x xs, List.mem_cons_of_mem _ hy⟩
    · rcases ih hp with ⟨h1, h2⟩
      exact ⟨List.mem_cons_of_mem _ h1, List.mem_cons_of_mem _ h2⟩

lemma count_map_pair {α : Type} [DecidableEq α] (x a b : α) (xs : List α) :
    (xs.map (fun y => (x, y))).count (a, b) =
      if a = x then xs.count b else 0 := by
  induction xs with
  | nil => simp
  | cons z zs ih =>
    simp only [List.map_cons, List.count_cons, ih, Prod.mk.injEq]
    rcases eq_or_ne a x with rfl | hax
    · rcases eq_or_ne b z with rfl | hbz
      · simp [List.count_cons]
      · simp [List.count_cons, hbz]
    · simp [List.count_cons, hax, Ne.symm hax]

lemma pairCombinations_fst_ne_snd {α : Type} :
    ∀ {C : List α}, C.Nodup → ∀ {p : α × α}, p ∈ pairCombinations C → p.1 ≠ p.2 := by
  intro C
  induction C with
  | nil => intro _ p hp; simp [pairCombinations] at hp
  | cons x xs ih =>
    intro hC p hp
    have hxnot : x ∉ xs := (List.nodup_cons.mp hC).1
    rcases List.mem_append.mp hp with hp | hp
    · rcases List.mem_map.mp hp with ⟨y, hy, rfl⟩
      intro h
      have hxy : x = y := h
      exact hxnot (hxy ▸ hy)
    · exact ih (List.nodup_cons.mp hC).2 hp

lemma pairCombinations_count {α : Type} [DecidableEq α] :
    ∀ {C : List α}, C.Nodup → ∀ {i j : α}, i ∈ C → j ∈ C → i ≠ j →
      (pairCombinations C).count (i, j) + (pairCombinations C).count (j, i) = 1 := by
  intro C
  induction C with
  | nil => intro _ i j hi; simp at hi
  | cons x xs ih =>
    intro hC i j hi hj hij
    have hxnot : x ∉ xs := (List.nodup_cons.mp hC).1
    have hnd : xs.Nodup := (List.nodup_cons.mp hC).2
    have cz : ∀ a b : α, a ∉ xs →
        (pairCombinations xs).count (a, b) = 0 := fun a b ha =>
      List.count_eq_zero.mpr (fun hmem => ha (mem_pairCombinations hmem).1)
    have cz' : ∀ a b : α, b ∉ xs →
        (pairCombinations xs).count (a, b) = 0 := fun a b hb =>
      List.count_eq_zero.mpr (fun hmem => hb (mem_pairCombinations hmem).2)
    simp only [pairCombinations, List.count_append, count_map_pair]
    rcases List.mem_cons.mp hi with rfl | hi'
    · have hj' : j ∈ xs := by
        rcases List.mem_cons.mp hj with rfl | h
        · exact absurd rfl hij
        · exact h
      rw [if_pos rfl, if_neg (Ne.symm hij), cz i j hxnot, cz' j i hxnot,
        List.count_eq_one_of_mem hnd hj']
    · rcases List.mem_cons.mp hj with rfl | hj'
      · rw [if_pos rfl, if_neg hij, cz' i j hxnot, cz j i hxnot,
          List.count_eq_one_of_mem hnd hi']
      · have hix : i ≠ x := fun h => hxnot (h ▸ hi')
        have hjx : j ≠ x := fun h => hxnot (h ▸ hj')
        rw [if_neg hix, if_neg hjx]
        simpa using ih hnd hi' hj' hij

/-! ### Helper lemmas on the variance -/

lemma sum_sq_dev (m : ℚ) (l : List ℚ) :
    (l.map (fun x => (x - m) ^ 2)).sum =
      (l.map (fun x => x ^ 2)).sum - 2 * m * l.sum + l.length * m ^ 2 := by
  induction l with
  | nil => simp
  | cons a t ih =>
    simp only [List.map_cons, List.sum_cons, List.length_cons, ih]
    push_cast
    ring

lemma npVar_moments {l : List ℚ} (hl : l ≠ []) :
    npVar l =
      some ((l.map (fun x => x ^ 2)).sum / (l.length : ℚ)
        - (l.sum / (l.length : ℚ)) ^ 2) := by
  have hn0 : l.length ≠ 0 := fun h => hl (List.length_eq_zero.mp h)
  have hn : (l.length : ℚ) ≠ 0 := Nat.cast_ne_zero.mpr hn0
  unfold npVar
  rw [if_neg hn0]
  congr 1
  rw [sum_sq_dev]
  field_simp
  ring

/-! ### Equations for the fit and score paths -/

lemma fit_invalid_eq (m : ABOD) (X : DataMatrix)
    (h1 : m.method ≠ "fast") (h2 : m.method ≠ "default") :
    m.fit X =
      (some (PyErr.valueError (m.method ++ " is not a valid method")),
        { m with
            X_train_ := some X
            n_train_ := some X.length
            decision_scores_ := some (List.replicate X.length (some 0)) }) := by
  unfold ABOD.fit
  simp [h1, h2]

lemma fit_fast_range_eq (m : ABOD) (X : DataMatrix) (hm : m.method = "fast")
    (hk : m.n_neighbors < 1 ∨ m.n_neighbors > X.length) :
    m.fit X =
      (some (PyErr.rangeError m.n_neighbors 1 X.length),
        { m with
            X_train_ := some X
            n_train_ := some X.length
            decision_scores_ := some (List.replicate X.length (some 0)) }) := by
  have hk' : m.n_neighbors = 0 ∨ X.length < m.n_neighbors := by omega
  unfold ABOD.fit
  simp [hm, check_parameter, hk']

lemma fit_fast_ok_eq (m : ABOD) (X : DataMatrix) (hm : m.method = "fast")
    (h1 : 1 ≤ m.n_neighbors) (h2 : m.n_neighbors ≤ X.length) :
    m.fit X =
      (none, processDecisionScores
        { m with
            X_train_ := some X
            n_train_ := some X.length
            tree_ := some X
            decision_scores_ :=
              some (flipScores (fitFastScores X m.n_neighbors)) }) := by
  have hk' : ¬ (m.n_neighbors = 0 ∨ X.length < m.n_neighbors) := by omega
  unfold ABOD.fit
  simp [hm, check_parameter, hk']

lemma fit_default_eq (m : ABOD) (X : DataMatrix) (hm : m.method = "default") :
    m.fit X =
      (none, processDecisionScores
        { m with
            X_train_ := some X
            n_train_ := some X.length
            decision_scores_ := some (flipScores (fitDefaultScores X)) }) := by
  unfold ABOD.fit
  simp [hm]

lemma processDecisionScores_fields (m : ABOD) :
    (processDecisionScores m).contamination = m.contamination ∧
    (processDecisionScores m).n_neighbors = m.n_neighbors ∧
    (processDecisionScores m).method = m.method ∧
    (processDecisionScores m).X_train_ = m.X_train_ ∧
    (processDecisionScores m).n_train_ = m.n_train_ ∧
    (processDecisionScores m).decision_scores_ = m.decision_scores_ ∧
    (processDecisionScores m).tree_ = m.tree_ ∧
    (processDecisionScores m).threshold_.isSome = true ∧
    (processDecisionScores m).labels_.isSome = true :=
  ⟨rfl, rfl, rfl, rfl, rfl, rfl, rfl, rfl, rfl⟩

lemma missingAttrs_eq_nil_iff (m : ABOD) :
    m.missingAttrs = [] ↔
      m.X_train_.isSome = true ∧ m.n_train_.isSome = true ∧
      m.decision_scores_.isSome = true ∧ m.threshold_.isSome = true ∧
      m.labels_.isSome = true := by
  unfold ABOD.missingAttrs
  rcases m.X_train_ <;> rcases m.n_train_ <;> rcases m.decision_scores_ <;>
    rcases m.threshold_ <;> rcases m.labels_ <;> simp

lemma decision_function_not_fitted (m : ABOD) (X : DataMatrix)
    (hma : m.missingAttrs ≠ []) :
    m.decision_function X = (Except.error (PyErr.notFitted m.missingAttrs), m) := by
  unfold ABOD.decision_function
  simp [hma]

lemma decision_function_default_eq (m : ABOD) (X : DataMatrix)
    (hma : m.missingAttrs = []) (hm : m.method ≠ "fast") :
    m.decision_function X = (Except.ok (flipScores (decisionDefault m X)), m) := by
  unfold ABOD.decision_function
  simp [hma, hm]

lemma decision_function_fast_eq (m : ABOD) (X : DataMatrix) (tree : DataMatrix)
    (hma : m.missingAttrs = []) (hm : m.method = "fast")
    (ht : m.tree_ = some tree) :
    m.decision_function X = (Except.ok (flipScores (decisionFast m tree X)), m) := by
  unfold ABOD.decision_function
  simp [hma, hm, ht]

lemma decision_function_snd (m : ABOD) (X : DataMatrix) :
    (m.decision_function X).2 = m := by
  unfold ABOD.decision_function
  split
  · rfl
  · split
    · cases m.tree_ <;> rfl
    · rfl

/-! ### Lengths of sorted lists and neighbour queries -/

lemma length_insertBy {α : Type} (le : α → α → Bool) (x : α) :
    ∀ l : List α, (insertBy le x l).length = l.length + 1 := by
  intro l
  induction l with
  | nil => rfl
  | cons y ys ih =>
    unfold insertBy
    split
    · rfl
    · simp [ih]

lemma length_sortBy {α : Type} (le : α → α → Bool) :
    ∀ l : List α, (sortBy le l).length = l.length := by
  intro l
  induction l with
  | nil => rfl
  | cons y ys ih => simp [sortBy, length_insertBy, ih]

lemma length_kneighbors (X : DataMatrix) (q : Point) (k : Nat) :
    (kneighbors X q k).length = min k X.length := by
  simp [kneighbors, length_sortBy]

lemma pairCombinations_of_short {α : Type} {l : List α} (h : l.length < 2) :
    pairCombinations l = [] := by
  match l with
  | [] => rfl
  | [a] => rfl
  | a :: b :: t => exact absurd h (by simp)

/-! ### Claim theorems -/

/-- C1: for every pivot `P`, training matrix `X` and duplicate-free
candidate list `C`, `_calculate_wocs` enumerates every unordered pair of
distinct candidate indices exactly once (combinations, not permutations);
it skips a pair exactly when one endpoint equals `P` coordinate-wise and
otherwise contributes `dot(a,b)/‖a‖²/‖b‖²` with `a = X[i]−P`, `b = X[j]−P`;
and it returns the population variance (divide by the count) of the
collected values, NaN on an empty collection. -/
theorem wocs_pair_enumeration_and_variance (P : Point) (X : DataMatrix)
    (C : List Nat) (hC : C.Nodup) :
    (∀ p ∈ pairCombinations C, p.1 ∈ C ∧ p.2 ∈ C ∧ p.1 ≠ p.2) ∧
    (∀ i j : Nat, i ∈ C → j ∈ C → i ≠ j →
      (pairCombinations C).count (i, j) + (pairCombinations C).count (j, i) = 1) ∧
    calculateWocs P X C =
      npVar ((pairCombinations C).filterMap (fun p =>
        if rowOf X p.1 = P ∨ rowOf X p.2 = P then none
        else some (dot (vsub (rowOf X p.1) P) (vsub (rowOf X p.2) P)
            / sqNorm (vsub (rowOf X p.1) P) / sqNorm (vsub (rowOf X p.2) P)))) ∧
    npVar [] = none ∧
    (∀ l : List ℚ, l ≠ [] →
      npVar l = some ((l.map (fun x => x ^ 2)).sum / (l.length : ℚ)
        - (l.sum / (l.length : ℚ)) ^ 2)) := by
  refine ⟨?_, ?_, rfl, rfl, ?_⟩
  · intro p hp
    exact ⟨(mem_pairCombinations hp).1, (mem_pairCombinations hp).2,
      pairCombinations_fst_ne_snd hC hp⟩
  · intro i j hi hj hij
    exact pairCombinations_count hC hi hj hij
  · intro l hl
    exact npVar_moments hl

/-- Witness for C1 at `P = [0,0]`, `X = [[1,0],[0,1],[3,4]]`,
`C = [0,1,2]`: the unordered pair `{0,1}` is enumerated exactly once. -/
theorem wocs_pair_enumeration_and_variance_witness :
    (pairCombinations [0, 1, 2]).count ((0 : Nat), (1 : Nat)) +
      (pairCombinations [0, 1, 2]).count (1, 0) = 1 :=
  (wocs_pair_enumeration_and_variance [0, 0] [[1, 0], [0, 1], [3, 4]]
    [0, 1, 2] (by decide)).2.1 0 1 (by decide) (by decide) (by decide)

lemma calculateWocs_of_short (P : Point) (X : DataMatrix) {C : List Nat}
    (h : C.length < 2) : calculateWocs P X C = none := by
  unfold calculateWocs wcosList
  rw [pairCombinations_of_short h]
  rfl

/-- C7: a candidate set with zero valid pairs makes the WOCS statistic NaN
(`none`) rather than an error, a single valid pair makes it `0`; and
fast-mode fit with `k = 1` raises nothing while every stored score is NaN. -/
theorem wocs_degenerate_nan_and_k1_scores (m : ABOD) (X : DataMatrix)
    (P : Point) (C : List Nat) :
    (wcosList P X C = [] → calculateWocs P X C = none) ∧
    (C.length < 2 → calculateWocs P X C = none) ∧
    (∀ v : ℚ, wcosList P X C = [v] → calculateWocs P X C = some 0) ∧
    (m.method = "fast" → m.n_neighbors = 1 → 1 ≤ X.length →
      (m.fit X).1 = none ∧
      ∀ s ∈ (m.fit X).2.decision_scores_.getD [], s = none) := by
  refine ⟨?_, ?_, ?_, ?_⟩
  · intro h
    unfold calculateWocs
    rw [h]
    rfl
  · exact fun h => calculateWocs_of_short P X h
  · intro v h
    unfold calculateWocs
    rw [h]
    norm_num [npVar]
  · intro hm hk hn
    have hnone : ∀ i : Nat,
        calculateWocs (rowOf X i) X (kneighbors X (rowOf X i) m.n_neighbors) = none := by
      intro i
      refine calculateWocs_of_short _ _ ?_
      rw [length_kneighbors]
      omega
    rw [fit_fast_ok_eq m X hm (by omega) (by omega)]
    refine ⟨rfl, ?_⟩
    intro s hs
    have hs' : s ∈ flipScores (fitFastScores X m.n_neighbors) := hs
    rcases List.mem_map.mp hs' with ⟨x, hx, rfl⟩
    rcases List.mem_map.mp hx with ⟨i, _, rfl⟩
    rw [hnone i]
    rfl

/-- Witness for C7 at `X = [[0],[1],[2]]`, `k = 1`: the fast fit raises
nothing and the first stored score is NaN. -/
theorem wocs_degenerate_nan_and_k1_scores_witness :
    ((mkABOD (1/10) 1 "fast").fit [[0], [1], [2]]).1 = none ∧
      calculateWocs [0] [[0], [1]] [] = none := by
  refine ⟨?_, ?_⟩
  · exact ((wocs_degenerate_nan_and_k1_scores (mkABOD (1/10) 1 "fast")
      [[0], [1], [2]] [0] []).2.2.2 rfl rfl (by norm_num)).1
  · exact (wocs_degenerate_nan_and_k1_scores (mkABOD (1/10) 1 "fast")
      [[0], [1], [2]] [0] []).2.1 (by norm_num)

/-- C2 counterexample: fitting a fresh detector with the unknown mode
"weird" raises the invalid-configuration error, yet the detector object
does retain mutated state: `X_train_` goes from `none` to the training
matrix, refuting "no state is mutated / no partial fitted state". -/
theorem fit_invalid_mode_counterexample :
    ((mkABOD (1/10) 5 "weird").fit [[0], [1]]).1
        = some (PyErr.valueError "weird is not a valid method") ∧
      (mkABOD (1/10) 5 "weird").X_train_ = none ∧
      ((mkABOD (1/10) 5 "weird").fit [[0], [1]]).2.X_train_ = some [[0], [1]] := by
  rw [fit_invalid_eq (mkABOD (1/10) 5 "weird") [[0], [1]] (by decide) (by decide)]
  exact ⟨rfl, rfl, rfl⟩

/-- C2 (amended): with a mode string that is neither "fast" nor "default",
`fit` raises the invalid-configuration `ValueError`, but only after
assigning `X_train_`, `n_train_` and a zero-initialised `decision_scores_`;
those partial fitted attributes are retained after the failed call, while
`threshold_`, `labels_` and `tree_` are left untouched (so the detector
still fails the not-fitted check of `decision_function`). -/
theorem fit_invalid_mode_error_partial_state (m : ABOD) (X : DataMatrix)
    (h1 : m.method ≠ "fast") (h2 : m.method ≠ "default") :
    (m.fit X).1 = some (PyErr.valueError (m.method ++ " is not a valid method")) ∧
    (m.fit X).2.X_train_ = some X ∧
    (m.fit X).2.n_train_ = some X.length ∧
    (m.fit X).2.decision_scores_ = some (List.replicate X.length (some 0)) ∧
    (m.fit X).2.threshold_ = m.threshold_ ∧
    (m.fit X).2.labels_ = m.labels_ ∧
    (m.fit X).2.tree_ = m.tree_ := by
  rw [fit_invalid_eq m X h1 h2]
  exact ⟨rfl, rfl, rfl, rfl, rfl, rfl, rfl⟩

/-- Witness for the amended C2 at a fresh detector with mode "weird". -/
theorem fit_invalid_mode_error_partial_state_witness :
    ((mkABOD (1/10) 5 "weird").fit [[0], [1]]).2.n_train_ = some 2 :=
  (fit_invalid_mode_error_partial_state (mkABOD (1/10) 5 "weird") [[0], [1]]
    (by decide) (by decide)).2.2.1

/-- C3: fast-mode fit fails with a parameter-range error, before the
neighbour index `tree_` is assigned, exactly when `k` violates
`1 ≤ k ≤ N`; with `1 ≤ k ≤ N` (in particular `k = N`) it raises nothing. -/
theorem fit_fast_param_range (m : ABOD) (X : DataMatrix)
    (hm : m.method = "fast") :
    (m.n_neighbors < 1 ∨ m.n_neighbors > X.length →
      (m.fit X).1 = some (PyErr.rangeError m.n_neighbors 1 X.length) ∧
      (m.fit X).2.tree_ = m.tree_) ∧
    (1 ≤ m.n_neighbors → m.n_neighbors ≤ X.length → (m.fit X).1 = none) := by
  constructor
  · intro hk
    rw [fit_fast_range_eq m X hm hk]
    exact ⟨rfl, rfl⟩
  · intro h1 h2
    rw [fit_fast_ok_eq m X hm h1 h2]

/-- Witness for C3: on a 2-point training set, `k = 3 > N` fails with the
range error and an untouched `tree_`, while `k = 2 = N` succeeds. -/
theorem fit_fast_param_range_witness :
    (((mkABOD (1/10) 3 "fast").fit [[0], [1]]).1
        = some (PyErr.rangeError 3 1 2) ∧
      ((mkABOD (1/10) 3 "fast").fit [[0], [1]]).2.tree_ = none) ∧
    ((mkABOD (1/10) 2 "fast").fit [[0], [1]]).1 = none := by
  constructor
  · exact (fit_fast_param_range (mkABOD (1/10) 3 "fast") [[0], [1]] rfl).1
      (by decide)
  · exact (fit_fast_param_range (mkABOD (1/10) 2 "fast") [[0], [1]] rfl).2
      (by decide) (by decide)

lemma getD_map {α β : Type} (l : List α) (f : α → β) (i : Nat)
    (h : i < l.length) (d : β) (d' : α) :
    (l.map f).getD i d = f (l.getD i d') := by
  rw [List.getD_eq_getElem?_getD, List.getD_eq_getElem?_getD,
    List.getElem?_map, List.getElem?_eq_getElem h]
  rfl

lemma getD_map_range {β : Type} {n i : Nat} (h : i < n) (f : Nat → β) (d : β) :
    ((List.range n).map f).getD i d = f i := by
  rw [getD_map (List.range n) f i (by simpa using h) d 0,
    List.getD_eq_getElem?_getD, List.getElem?_range h]
  rfl

/-- C5: in default mode the fit-time candidate set for training point `i`
is `range N` with `i` removed, while the score-time candidate set for every
query point is all of `range N`; the two sets differ for every `i < N`. -/
theorem default_mode_candidate_sets (m : ABOD) (X Q : DataMatrix)
    (hm : m.method = "default") :
    ((m.fit X).2.decision_scores_ = some (flipScores (fitDefaultScores X))) ∧
    (∀ i, i < X.length → (fitDefaultScores X).getD i none
        = calculateWocs (rowOf X i) X ((List.range X.length).erase i)) ∧
    (((m.fit X).2.decision_function Q).1
        = Except.ok (flipScores (decisionDefault (m.fit X).2 Q))) ∧
    (∀ j, j < Q.length → (decisionDefault (m.fit X).2 Q).getD j none
        = calculateWocs (rowOf Q j) X (List.range X.length)) ∧
    (∀ i, i < X.length → (List.range X.length).erase i ≠ List.range X.length) := by
  have hfit := fit_default_eq m X hm
  have hma : (m.fit X).2.missingAttrs = [] := by
    rw [hfit, missingAttrs_eq_nil_iff]
    exact ⟨rfl, rfl, rfl, rfl, rfl⟩
  have hmeth : (m.fit X).2.method ≠ "fast" := by
    rw [hfit]
    show m.method ≠ "fast"
    rw [hm]
    decide
  refine ⟨by rw [hfit]; rfl, ?_, ?_, ?_, ?_⟩
  · intro i hi
    exact getD_map_range hi _ none
  · rw [decision_function_default_eq (m.fit X).2 Q hma hmeth]
  · intro j hj
    rw [decisionDefault, getD_map Q _ j hj none []]
    rw [hfit]
    rfl
  · intro i hi heq
    have hlen := congrArg List.length heq
    rw [List.length_erase_of_mem (List.mem_range.mpr hi),
      List.length_range] at hlen
    omega

/-- Witness for C5 on a 3-point training set with one query point. -/
theorem default_mode_candidate_sets_witness :
    ((mkABOD (1/10) 5 "default").fit [[0], [1], [2]]).2.decision_scores_
        = some (flipScores (fitDefaultScores [[0], [1], [2]])) ∧
      (List.range 3).erase 0 ≠ List.range 3 :=
  ⟨(default_mode_candidate_sets (mkABOD (1/10) 5 "default")
      [[0], [1], [2]] [[5]] rfl).1,
    (default_mode_candidate_sets (mkABOD (1/10) 5 "default")
      [[0], [1], [2]] [[5]] rfl).2.2.2.2 0 (by decide)⟩

/-- C6: in both modes, the stored fit-time scores and the scores returned
by `decision_function` are the raw per-point WOCS arrays multiplied by −1
(`flipScores` is literally elementwise multiplication by −1). -/
theorem scores_sign_flip (m : ABOD) (X Q : DataMatrix) :
    (∀ l : List (Option ℚ),
      flipScores l = l.map (Option.map (fun s => s * (-1)))) ∧
    (m.method = "fast" → 1 ≤ m.n_neighbors → m.n_neighbors ≤ X.length →
      (m.fit X).2.decision_scores_
          = some (flipScores (fitFastScores X m.n_neighbors)) ∧
      ((m.fit X).2.decision_function Q).1
          = Except.ok (flipScores (decisionFast (m.fit X).2 X Q))) ∧
    (m.method = "default" →
      (m.fit X).2.decision_scores_ = some (flipScores (fitDefaultScores X)) ∧
      ((m.fit X).2.decision_function Q).1
          = Except.ok (flipScores (decisionDefault (m.fit X).2 Q))) := by
  refine ⟨fun l => rfl, ?_, ?_⟩
  · intro hm h1 h2
    have hfit := fit_fast_ok_eq m X hm h1 h2
    have hma : (m.fit X).2.missingAttrs = [] := by
      rw [hfit, missingAttrs_eq_nil_iff]
      exact ⟨rfl, rfl, rfl, rfl, rfl⟩
    have hmeth : (m.fit X).2.method = "fast" := by
      rw [hfit]
      show m.method = "fast"
      exact hm
    have htree : (m.fit X).2.tree_ = some X := by
      rw [hfit]
      rfl
    exact ⟨by rw [hfit]; rfl,
      by rw [decision_function_fast_eq (m.fit X).2 Q X hma hmeth htree]⟩
  · intro hm
    have hfit := fit_default_eq m X hm
    have hma : (m.fit X).2.missingAttrs = [] := by
      rw [hfit, missingAttrs_eq_nil_iff]
      exact ⟨rfl, rfl, rfl, rfl, rfl⟩
    have hmeth : (m.fit X).2.method ≠ "fast" := by
      rw [hfit]
      show m.method ≠ "fast"
      rw [hm]
      decide
    exact ⟨by rw [hfit]; rfl,
      by rw [decision_function_default_eq (m.fit X).2 Q hma hmeth]⟩

/-- Witness for C6: fast fit on 3 points with `k = 2` stores the flipped
raw scores. -/
theorem scores_sign_flip_witness :
    ((mkABOD (1/10) 2 "fast").fit [[0], [1], [2]]).2.decision_scores_
      = some (flipScores (fitFastScores [[0], [1], [2]] 2)) :=
  ((scores_sign_flip (mkABOD (1/10) 2 "fast") [[0], [1], [2]] [[1]]).2.1
    rfl (by decide) (by decide)).1

/-- C8: `decision_function` fails with a not-fitted error naming exactly
the missing fitted attributes whenever any of the five is absent, returns
scores only when all five are present, and on a freshly constructed
detector all five are missing. -/
theorem decision_function_not_fitted_check (m : ABOD) (X : DataMatrix)
    (c : ℚ) (k : Nat) (meth : String) :
    (m.missingAttrs ≠ [] →
      (m.decision_function X).1 = Except.error (PyErr.notFitted m.missingAttrs)) ∧
    (∀ scores, (m.decision_function X).1 = Except.ok scores →
      m.missingAttrs = []) ∧
    (m.missingAttrs = [] ↔
      m.X_train_.isSome = true ∧ m.n_train_.isSome = true ∧
      m.decision_scores_.isSome = true ∧ m.threshold_.isSome = true ∧
      m.labels_.isSome = true) ∧
    (mkABOD c k meth).missingAttrs
      = ["X_train_", "n_train_", "decision_scores_", "threshold_", "labels_"] := by
  refine ⟨?_, ?_, missingAttrs_eq_nil_iff m, rfl⟩
  · intro hma
    rw [decision_function_not_fitted m X hma]
  · intro scores h
    by_contra hne
    rw [decision_function_not_fitted m X hne] at h
    exact absurd h (by simp)

/-- Witness for C8: scoring a fresh detector fails naming all five fitted
attributes. -/
theorem decision_function_not_fitted_check_witness :
    ((mkABOD (1/10) 5 "fast").decision_function [[0]]).1
      = Except.error (PyErr.notFitted
          ["X_train_", "n_train_", "decision_scores_", "threshold_", "labels_"]) :=
  (decision_function_not_fitted_check (mkABOD (1/10) 5 "fast") [[0]]
    (1/10) 5 "fast").1 (by decide)

/-- C9: `decision_function` leaves the fitted state unchanged, and a second
call with the same query matrix returns the identical result. -/
theorem decision_function_idempotent (m : ABOD) (X : DataMatrix) :
    (m.decision_function X).2 = m ∧
    ((m.decision_function X).2.decision_function X).1 = (m.decision_function X).1 := by
  refine ⟨decision_function_snd m X, ?_⟩
  rw [decision_function_snd m X]

/-! ### Order invariance of the WOCS statistic -/

lemma dot_comm (a b : Point) : dot a b = dot b a := by
  unfold dot
  rw [List.zipWith_comm_of_comm _ mul_comm]

lemma wocsOfPair_symm (P a b : Point) : wocsOfPair P a b = wocsOfPair P b a := by
  unfold wocsOfPair
  by_cases h : a = P ∨ b = P
  · rw [if_pos h, if_pos h.symm]
  · rw [if_neg h, if_neg (fun h' => h h'.symm)]
    rw [dot_comm, div_right_comm]

lemma wcosList_perm (P : Point) (X : DataMatrix) {C C' : List Nat}
    (h : C.Perm C') : (wcosList P X C).Perm (wcosList P X C') := by
  induction h with
  | nil => exact List.Perm.refl _
  | cons x h ih =>
    simp only [wcosList, pairCombinations, List.filterMap_append,
      List.filterMap_map] at *
    exact (h.filterMap _).append ih
  | swap x y l =>
    simp only [wcosList, pairCombinations, List.filterMap_append,
      List.filterMap_map, List.filterMap_cons, Function.comp]
    rw [wocsOfPair_symm P (rowOf X y) (rowOf X x)]
    cases wocsOfPair P (rowOf X x) (rowOf X y) with
    | none =>
        simp only [List.nil_append]
        rw [← List.append_assoc, ← List.append_assoc]
        exact List.perm_append_comm.append_right _
    | some v =>
        simp only [List.singleton_append, List.cons_append]
        refine List.Perm.cons v ?_
        rw [← List.append_assoc, ← List.append_assoc]
        exact List.perm_append_comm.append_right _
  | trans h1 h2 ih1 ih2 => exact ih1.trans ih2

lemma npVar_perm {l l' : List ℚ} (h : l.Perm l') : npVar l = npVar l' := by
  have hs : ∀ g : ℚ → ℚ, (l.map g).sum = (l'.map g).sum :=
    fun g => (h.map g).sum_eq
  unfold npVar
  rw [h.length_eq, h.sum_eq, hs]

/-- C10: the WOCS statistic depends only on the set of candidate indices:
two duplicate-free candidate lists that are permutations of each other
yield the same value. -/
theorem wocs_order_invariant (P : Point) (X : DataMatrix) (C C' : List Nat)
    (h : C.Nodup) (h' : C'.Nodup) (hp : C.Perm C') :
    calculateWocs P X C = calculateWocs P X C' :=
  npVar_perm (wcosList_perm P X hp)

/-- Witness for C10: reordering the candidate list `[0,1,2]` to `[2,0,1]`
leaves the statistic unchanged. -/
theorem wocs_order_invariant_witness :
    calculateWocs [0, 0] [[1, 0], [0, 1], [2, 3]] [0, 1, 2]
      = calculateWocs [0, 0] [[1, 0], [0, 1], [2, 3]] [2, 0, 1] :=
  wocs_order_invariant [0, 0] [[1, 0], [0, 1], [2, 3]] [0, 1, 2] [2, 0, 1]
    (by decide) (by decide) (by decide)

/-! ### The minimum comes first in a sorted list -/

lemma mem_insertBy {α : Type} (le : α → α → Bool) (x y : α) :
    ∀ l : List α, (y ∈ insertBy le x l ↔ y = x ∨ y ∈ l) := by
  intro l
  induction l with
  | nil => simp [insertBy]
  | cons z zs ih =>
    unfold insertBy
    split
    · simp
    · simp [ih]
      tauto

lemma mem_sortBy {α : Type} (le : α → α → Bool) (y : α) :
    ∀ l : List α, (y ∈ sortBy le l ↔ y ∈ l) := by
  intro l
  induction l with
  | nil => simp [sortBy]
  | cons z zs ih => simp [sortBy, mem_insertBy, ih]

lemma insertBy_cons {α : Type} (le : α → α → Bool) (x y : α) (ys : List α) :
    insertBy le x (y :: ys) =
      if le x y then x :: y :: ys else y :: insertBy le x ys := rfl

lemma insertBy_eq_cons {α : Type} (le : α → α → Bool) (x : α) (l : List α)
    (h : ∀ y ∈ l, le x y = true) : insertBy le x l = x :: l := by
  cases l with
  | nil => rfl
  | cons y ys =>
    unfold insertBy
    rw [if_pos (h y (List.mem_cons_self y ys))]

lemma sortBy_cons_min {α : Type} (le : α → α → Bool) :
    ∀ (l : List α) (x : α), x ∈ l → le x x = true →
      (∀ y ∈ l, y ≠ x → le x y = true ∧ le y x = false) →
      ∃ t, sortBy le l = x :: t := by
  intro l
  induction l with
  | nil => intro x hx; exact absurd hx (List.not_mem_nil x)
  | cons a as ih =>
    intro x hx hxx hmin
    show ∃ t, insertBy le a (sortBy le as) = x :: t
    by_cases hax : a = x
    · subst hax
      refine ⟨sortBy le as, insertBy_eq_cons le a _ ?_⟩
      intro y hy
      have hy' : y ∈ a :: as :=
        List.mem_cons_of_mem a ((mem_sortBy le y as).mp hy)
      by_cases hya : y = a
      · rw [hya]; exact hxx
      · exact (hmin y hy' hya).1
    · have hx' : x ∈ as := by
        rcases List.mem_cons.mp hx with h | h
        · exact absurd h.symm hax
        · exact h
      obtain ⟨t, ht⟩ := ih x hx' hxx
        (fun y hy hyx => hmin y (List.mem_cons_of_mem a hy) hyx)
      have hfalse : le a x = false :=
        (hmin a (List.mem_cons_self a as) hax).2
      refine ⟨insertBy le a t, ?_⟩
      rw [ht, insertBy_cons le a x t, if_neg (by simp [hfalse])]

/-! ### Geometry facts for self-neighbourhood -/

lemma sqNorm_nonneg (a : Point) : 0 ≤ sqNorm a := by
  unfold sqNorm dot
  rw [List.zipWith_same]
  refine List.sum_nonneg ?_
  intro x hx
  rcases List.mem_map.mp hx with ⟨y, _, rfl⟩
  exact mul_self_nonneg y

lemma sqNorm_vsub_self (a : Point) : sqNorm (vsub a a) = 0 := by
  induction a with
  | nil => rfl
  | cons x t ih =>
    show sqNorm (vsub (x :: t) (x :: t)) = 0
    simp only [vsub, sqNorm, dot, List.zipWith_cons_cons, List.sum_cons] at ih ⊢
    rw [sub_self, zero_mul, zero_add]
    exact ih

lemma self_mem_kneighbors (X : DataMatrix) (i k : Nat) (hi : i < X.length)
    (hk : 1 ≤ k)
    (hprev : ∀ j, j < i → sqNorm (vsub (rowOf X j) (rowOf X i)) ≠ 0) :
    i ∈ kneighbors X (rowOf X i) k := by
  have hmemi : ((0 : ℚ), i) ∈
      (List.range X.length).map
        (fun j => (sqNorm (vsub (rowOf X j) (rowOf X i)), j)) := by
    have h0 : (sqNorm (vsub (rowOf X i) (rowOf X i)), i) ∈
        (List.range X.length).map
          (fun j => (sqNorm (vsub (rowOf X j) (rowOf X i)), j)) :=
      List.mem_map.mpr ⟨i, List.mem_range.mpr hi, rfl⟩
    rwa [sqNorm_vsub_self] at h0
  have hxx : distIdxLe (0, i) (0, i) = true := by simp [distIdxLe]
  have hmin : ∀ y ∈ (List.range X.length).map
      (fun j => (sqNorm (vsub (rowOf X j) (rowOf X i)), j)),
      y ≠ ((0 : ℚ), i) →
      distIdxLe (0, i) y = true ∧ distIdxLe y (0, i) = false := by
    intro y hy hne
    rcases List.mem_map.mp hy with ⟨j, _, rfl⟩
    have hnn : 0 ≤ sqNorm (vsub (rowOf X j) (rowOf X i)) := sqNorm_nonneg _
    rcases lt_trichotomy j i with hlt | heq | hgt
    · have hne0 : sqNorm (vsub (rowOf X j) (rowOf X i)) ≠ 0 := hprev j hlt
      have hpos : 0 < sqNorm (vsub (rowOf X j) (rowOf X i)) :=
        lt_of_le_of_ne hnn (Ne.symm hne0)
      constructor
      · simp only [distIdxLe, decide_eq_true_eq]
        exact Or.inl hpos
      · simp only [distIdxLe, decide_eq_false_iff_not]
        rintro (h | ⟨h0, _⟩)
        · exact absurd h (not_lt.mpr hnn)
        · exact hne0 h0
    · subst heq
      rw [sqNorm_vsub_self] at hne
      exact absurd rfl hne
    · constructor
      · simp only [distIdxLe, decide_eq_true_eq]
        rcases eq_or_lt_of_le hnn with h0 | hpos
        · exact Or.inr ⟨h0, Nat.le_of_lt hgt⟩
        · exact Or.inl hpos
      · simp only [distIdxLe, decide_eq_false_iff_not]
        rintro (h | ⟨h0, hji⟩)
        · exact absurd h (not_lt.mpr hnn)
        · omega
  obtain ⟨t, ht⟩ := sortBy_cons_min distIdxLe _ ((0 : ℚ), i) hmemi hxx hmin
  unfold kneighbors
  rw [ht]
  cases k with
  | zero => omega
  | succ k' => simp

/-- C4: during fast-mode fit the candidate set of every training point `i`
is exactly the row the neighbour query returns — no self-exclusion is
applied by the engine; `i` is a member of its own candidate set whenever no
earlier training point coincides with it, and the WOCS statistic discards
any pair containing a point coincident with the pivot. -/
theorem fast_mode_no_self_exclusion (m : ABOD) (X : DataMatrix)
    (hm : m.method = "fast") (h1 : 1 ≤ m.n_neighbors)
    (h2 : m.n_neighbors ≤ X.length) :
    (m.fit X).2.decision_scores_
        = some (flipScores (fitFastScores X m.n_neighbors)) ∧
    (∀ i, i < X.length → (fitFastScores X m.n_neighbors).getD i none
        = calculateWocs (rowOf X i) X (kneighbors X (rowOf X i) m.n_neighbors)) ∧
    (∀ i, i < X.length →
      (∀ j, j < i → sqNorm (vsub (rowOf X j) (rowOf X i)) ≠ 0) →
      i ∈ kneighbors X (rowOf X i) m.n_neighbors) ∧
    (∀ P a b : Point, a = P ∨ b = P → wocsOfPair P a b = none) := by
  refine ⟨by rw [fit_fast_ok_eq m X hm h1 h2]; rfl, ?_, ?_, ?_⟩
  · intro i hi
    exact getD_map_range hi _ none
  · intro i hi hprev
    exact self_mem_kneighbors X i m.n_neighbors hi h1 hprev
  · intro P a b ha
    unfold wocsOfPair
    rw [if_pos ha]

/-- Witness for C4: on `X = [[0],[3],[10]]` with `k = 2`, training point 1
appears in its own candidate set. -/
theorem fast_mode_no_self_exclusion_witness :
    1 ∈ kneighbors [[0], [3], [10]] (rowOf [[0], [3], [10]] 1) 2 :=
  (fast_mode_no_self_exclusion (mkABOD (1/10) 2 "fast") [[0], [3], [10]]
    rfl (by decide) (by decide)).2.2.1 1 (by decide)
    (by intro j hj; interval_cases j <;> norm_num [sqNorm, vsub, dot, rowOf])

end Pyod
